import Mathlib

/-!
Verification of the PolyChat client core against its specification.

The embedding models, faithfully to the TypeScript source:
  * the stream-frame decoding loop of `handleSend` in `src/client/app/page.tsx`
    (chunk splitting, `data: ` line handling, JSON payload dispatch,
    the React-state capture semantics of the surrounding closure);
  * the guest quota gate and the send lifecycle (gate check, placeholder
    append, try/catch/finally cleanup) of the same file;
  * the conversation-history navigation effect of the same file
    (URL `c` parameter reaction and in-flight fetch resolution);
  * the forwarding proxy `handler` of
    `src/client/app/api/proxy/[...path]/route.ts`.

Platform functions used by the source (`JSON.parse`, `String.prototype.trim`,
`split(/\r?\n/)`, `startsWith`, JS truthiness and coercions) are given
executable Lean models restricted to the value shapes this protocol carries
(JSON objects of strings, integers, booleans, arrays and nested objects;
integer `conversationId` values).
-/

namespace PolyChat

/-- Message roles, from `type Message` in `page.tsx`. -/
inductive Role where
  | user
  | assistant
  | system
deriving DecidableEq, BEq, Repr

/-- A chat message: `{ role, content }` from `page.tsx`. -/
structure Message where
  role : Role
  content : String
deriving DecidableEq, BEq, Repr

/-! ### A model of JSON values and of `JSON.parse`

The streaming loop parses each `data:` line with `JSON.parse`. We model the
JSON value space with integer numbers (the payloads this protocol parses carry
only integers, strings, booleans, objects and arrays; no fractional number is
ever parsed by this client). -/

/-- JSON values as produced by `JSON.parse`. -/
inductive Json where
  | null : Json
  | bool : Bool → Json
  | num : Int → Json
  | str : String → Json
  | arr : List Json → Json
  | obj : List (String × Json) → Json

/-- JSON whitespace characters (space, tab, line feed, carriage return). -/
def jsonWs (c : Char) : Bool :=
  c = ' ' || c = '\t' || c = '\n' || c = '\r'

/-- Drop leading JSON whitespace. -/
def skipWs : List Char → List Char
  | [] => []
  | c :: rest => if jsonWs c then skipWs rest else c :: rest

/-- Hex digit value, for `\u` escapes in JSON strings. -/
def hexVal (c : Char) : Option Nat :=
  if '0' ≤ c ∧ c ≤ '9' then some (c.toNat - '0'.toNat)
  else if 'a' ≤ c ∧ c ≤ 'f' then some (c.toNat - 'a'.toNat + 10)
  else if 'A' ≤ c ∧ c ≤ 'F' then some (c.toNat - 'A'.toNat + 10)
  else none

/-- Single-character JSON string escapes. -/
def simpleEsc (c : Char) : Option Char :=
  if c = '"' then some '"'
  else if c = '\\' then some '\\'
  else if c = '/' then some '/'
  else if c = 'b' then some '\x08'
  else if c = 'f' then some '\x0c'
  else if c = 'n' then some '\n'
  else if c = 'r' then some '\r'
  else if c = 't' then some '\t'
  else none

/-- Parse the body of a JSON string literal (after the opening quote),
accumulating decoded characters; returns the string and the remaining input.
Control characters below U+0020 are rejected, as by `JSON.parse`. -/
def parseStrBody (acc : List Char) : List Char → Option (String × List Char)
  | [] => none
  | '"' :: rest => some (String.mk acc.reverse, rest)
  | '\\' :: 'u' :: h1 :: h2 :: h3 :: h4 :: rest =>
    match hexVal h1, hexVal h2, hexVal h3, hexVal h4 with
    | some a, some b, some c, some d =>
      parseStrBody (Char.ofNat (((a * 16 + b) * 16 + c) * 16 + d) :: acc) rest
    | _, _, _, _ => none
  | '\\' :: c :: rest =>
    match simpleEsc c with
    | some e => parseStrBody (e :: acc) rest
    | none => none
  | c :: rest =>
    if c.toNat < 32 then none else parseStrBody (c :: acc) rest

/-- Parse a run of decimal digits. -/
def parseDigits (acc : List Char) : List Char → List Char × List Char
  | [] => (acc.reverse, [])
  | c :: rest =>
    if '0' ≤ c ∧ c ≤ '9' then parseDigits (c :: acc) rest
    else (acc.reverse, c :: rest)

/-- Decimal digit list to a natural number. -/
def digitsToNat : List Char → Nat
  | [] => 0
  | ds => ds.foldl (fun n c => n * 10 + (c.toNat - '0'.toNat)) 0

/-- Parse a JSON integer literal (optional minus, no leading zeros),
as accepted by `JSON.parse` on the integral payloads of this protocol. -/
def parseIntLit : List Char → Option (Int × List Char)
  | '-' :: rest =>
    match parseIntLit rest with
    | some (n, r) => if n ≥ 0 then some (-n, r) else none
    | none => none
  | cs =>
    match parseDigits [] cs with
    | ([], _) => none
    | (d :: ds, rest) =>
      if d = '0' ∧ ds ≠ [] then none
      else some ((digitsToNat (d :: ds) : Int), rest)

mutual

/-- Fuel-bounded parser for a JSON value; models `JSON.parse` on the
payload shapes of this protocol. -/
def parseVal : Nat → List Char → Option (Json × List Char)
  | 0, _ => none
  | fuel + 1, cs =>
    match skipWs cs with
    | 'n' :: 'u' :: 'l' :: 'l' :: rest => some (Json.null, rest)
    | 't' :: 'r' :: 'u' :: 'e' :: rest => some (Json.bool true, rest)
    | 'f' :: 'a' :: 'l' :: 's' :: 'e' :: rest => some (Json.bool false, rest)
    | '"' :: rest =>
      match parseStrBody [] rest with
      | some (s, r) => some (Json.str s, r)
      | none => none
    | '[' :: rest =>
      (match skipWs rest with
       | ']' :: r2 => some (Json.arr [], r2)
       | other =>
         match parseItems fuel other with
         | some (xs, r2) => some (Json.arr xs, r2)
         | none => none)
    | '\x7b' :: rest =>
      (match skipWs rest with
       | '\x7d' :: r2 => some (Json.obj [], r2)
       | other =>
         match parseFields fuel other with
         | some (fs, r2) => some (Json.obj fs, r2)
         | none => none)
    | other =>
      match parseIntLit other with
      | some (n, r) => some (Json.num n, r)
      | none => none

/-- Parse comma-separated array items up to the closing bracket. -/
def parseItems : Nat → List Char → Option (List Json × List Char)
  | 0, _ => none
  | fuel + 1, cs =>
    match parseVal fuel cs with
    | some (v, rest) =>
      (match skipWs rest with
       | ',' :: r2 =>
         (match parseItems fuel r2 with
          | some (xs, r3) => some (v :: xs, r3)
          | none => none)
       | ']' :: r2 => some ([v], r2)
       | _ => none)
    | none => none

/-- Parse comma-separated object members up to the closing brace. -/
def parseFields : Nat → List Char → Option (List (String × Json) × List Char)
  | 0, _ => none
  | fuel + 1, cs =>
    match skipWs cs with
    | '"' :: rest =>
      (match parseStrBody [] rest with
       | some (k, r1) =>
         (match skipWs r1 with
          | ':' :: r2 =>
            (match parseVal fuel r2 with
             | some (v, r3) =>
               (match skipWs r3 with
                | ',' :: r4 =>
                  (match parseFields fuel r4 with
                   | some (fs, r5) => some ((k, v) :: fs, r5)
                   | none => none)
                | '\x7d' :: r4 => some ([(k, v)], r4)
                | _ => none)
             | none => none)
          | _ => none)
       | none => none)
    | _ => none

end

/-- Model of `JSON.parse`: parse one JSON value and require that only
whitespace remains. `none` models a thrown `SyntaxError`. -/
def jsonParse (s : String) : Option Json :=
  let cs := s.toList
  match parseVal (cs.length + 1) cs with
  | some (j, rest) => if (skipWs rest).isEmpty then some j else none
  | none => none

/-! ### JavaScript semantics helpers -/

/-- JS truthiness of a possibly-absent value (`undefined`, `null`, `0`,
`""` and `false` are falsy; objects and arrays are truthy). -/
def truthy : Option Json → Bool
  | none => false
  | some Json.null => false
  | some (Json.bool b) => b
  | some (Json.num n) => n != 0
  | some (Json.str s) => s != ""
  | some (Json.arr _) => true
  | some (Json.obj _) => true

/-- Property lookup on a JSON value; on duplicate keys `JSON.parse` keeps the
last occurrence, so lookup returns the last match. Non-objects have no
properties (optional chaining yields `undefined`). -/
def getField (o : Json) (k : String) : Option Json :=
  match o with
  | Json.obj fs => fs.foldl (fun acc kv => if kv.1 == k then some kv.2 else acc) none
  | _ => none

/-- The value of `obj.meta?.conversationId`. -/
def metaCid (o : Json) : Option Json :=
  (getField o "meta").bind (fun m => getField m "conversationId")

/-- Model of `Number(x)` on the values this protocol carries (integers,
digit strings, booleans); non-numeric coercions (which yield `NaN` in JS and
never occur in this protocol's frames) are mapped to 0. -/
def jsNumber : Json → Int
  | Json.num n => n
  | Json.bool b => if b then 1 else 0
  | Json.null => 0
  | Json.str s =>
    match parseIntLit s.toList with
    | some (n, []) => n
    | _ => 0
  | Json.arr _ => 0
  | Json.obj _ => 0

/-- Model of JS string coercion `String(x)` for the non-string payload
values this client could concatenate (atoms; composite values, which this
protocol never places in `content`, are rendered by their JS display form
approximately). -/
def jsString : Json → String
  | Json.null => "null"
  | Json.bool true => "true"
  | Json.bool false => "false"
  | Json.num n => toString n
  | Json.str s => s
  | Json.arr _ => ""
  | Json.obj _ => "[object Object]"

/-- JS `String.prototype.trim` whitespace set (the characters relevant to
this protocol's payloads). -/
def jsWsChar (c : Char) : Bool :=
  c = ' ' || c = '\t' || c = '\n' || c = '\r' || c = '\x0b' || c = '\x0c'

/-- Model of `s.trim()`. -/
def jsTrim (s : String) : String :=
  String.mk (((s.toList.dropWhile jsWsChar).reverse.dropWhile jsWsChar).reverse)

/-- Model of `s.startsWith(pre)`. -/
def strStartsWith (s pre : String) : Bool :=
  pre.toList.isPrefixOf s.toList

/-- Model of `s.slice(n)` for character counts (ASCII prefixes here). -/
def strSlice (s : String) (n : Nat) : String :=
  String.mk (s.toList.drop n)

/-! ### Conversation session state and the streaming loop

`handleSend` in `page.tsx` reads the response body in chunks, splits each
chunk on `/\r?\n/`, and dispatches `data:` lines. React state reads inside
the loop (`conversationId`, `guestCountState`, `session`) see the values
captured when the callback was created; state writes (`setConversationId`,
`setMessages`) update the current component state. The model therefore
separates a captured context (`SendCtx`) from the live state (`SessionSt`). -/

/-- The live component state owned by the page: current `conversationId`
state, `messages` state, the `suppressUrlLoadRef` ref, the `c` URL query
parameter written through `router.replace`, the number of
`conversations:refresh` events dispatched, the guest counter
(`guest_msg_count` in localStorage mirrored by `guestCountState`) and the
`loading` flag. -/
structure SessionSt where
  conversationId : Option Int
  messages : List Message
  suppressUrlLoad : Bool
  urlC : Option Int
  refreshCount : Nat
  guestCount : Int
  loading : Bool
deriving DecidableEq, Repr

/-- Values captured by the `handleSend` closure at the moment the send
started; they do not change while the stream loop runs. -/
structure SendCtx where
  capturedCid : Option Int
deriving DecidableEq, Repr

/-- Update the nearest trailing assistant message: the loop in `setMessages`
scans from the end of the array for the first `assistant` entry and replaces
its content with the accumulated buffer; if none exists, the array is
returned unchanged. -/
def setLastAssistant (msgs : List Message) (buf : String) : List Message :=
  match msgs with
  | [] => []
  | m :: rest =>
    if rest.any (fun x => x.role == Role.assistant) then
      m :: setLastAssistant rest buf
    else if m.role == Role.assistant then
      { m with content := buf } :: rest
    else
      m :: rest

/-- One content delta applied to the session: `assistantBuffer += t` followed
by the `setMessages` update writing the buffer into the trailing assistant
message. -/
def contentStep (st : SessionSt) (buf t : String) : SessionSt × String :=
  ({ st with messages := setLastAssistant st.messages (buf ++ t) }, buf ++ t)

/-- Dispatch of one successfully parsed `data:` payload, from the body of the
`try` block in the chunk loop of `handleSend`. -/
def processObj (ctx : SendCtx) (st : SessionSt) (buf : String) (o : Json) :
    SessionSt × String :=
  if truthy (metaCid o) && (ctx.capturedCid == none) then
    let newId := jsNumber ((metaCid o).getD Json.null)
    ({ st with
        conversationId := some newId,
        suppressUrlLoad := true,
        urlC := some newId,
        refreshCount := st.refreshCount + 1 }, buf)
  else
    let cv := getField o "content"
    if truthy cv then
      match cv with
      | some (Json.str s) =>
        if strStartsWith s "[model:" then (st, buf)
        else contentStep st buf s
      | some v => contentStep st buf (jsString v)
      | none => (st, buf)
    else (st, buf)

/-- Processing of one decoded line: the `data: ` prefix filter, the slice and
trim, the empty-data skip, and `JSON.parse` with parse errors swallowed. -/
def processLine (ctx : SendCtx) (acc : SessionSt × String) (line : String) :
    SessionSt × String :=
  if strStartsWith line "data: " then
    let data := jsTrim (strSlice line 6)
    if data == "" then acc
    else
      match jsonParse data with
      | some o => processObj ctx acc.1 acc.2 o
      | none => acc
  else acc

/-- Split a character list as `chunk.split(/\r?\n/)` does: a bare `\n` or a
`\r\n` pair separates lines; a `\r` not followed by `\n` is an ordinary
character. -/
def splitLinesAux : List Char → List Char → List String
  | [], acc => [String.mk acc.reverse]
  | '\n' :: rest, acc => String.mk acc.reverse :: splitLinesAux rest []
  | '\r' :: '\n' :: rest, acc => String.mk acc.reverse :: splitLinesAux rest []
  | c :: rest, acc => splitLinesAux rest (c :: acc)

/-- Model of `chunk.split(/\r?\n/)`. -/
def splitLines (s : String) : List String :=
  splitLinesAux s.toList []

/-- Process one decoded text chunk: split into lines and run the line loop. -/
def processChunk (ctx : SendCtx) (acc : SessionSt × String) (chunk : String) :
    SessionSt × String :=
  (splitLines chunk).foldl (processLine ctx) acc

/-- Run the read loop over a sequence of decoded text chunks. `TextDecoder`
with `stream: true` preserves partial multi-byte sequences across reads, so
every byte chunking of the stream corresponds to a chunking of its decoded
text; the model takes the decoded text chunks. -/
def runChunks (ctx : SendCtx) (acc : SessionSt × String) (chunks : List String) :
    SessionSt × String :=
  chunks.foldl (processChunk ctx) acc

/-! ### The send lifecycle -/

/-- How the network phase of a send ends: a normal end of stream (`done`
from the reader), a non-ok (or bodyless) HTTP response which throws before
any read, or a rejected read (user abort via `handleStop`, or a network
failure) carrying the platform error message. -/
inductive StreamEnd where
  | done : StreamEnd
  | httpError : Int → StreamEnd
  | aborted : String → StreamEnd
deriving DecidableEq, Repr

/-- Result of one `handleSend` invocation: the final session state, whether
the network request was issued, and whether the guest gate blocked the send
(the alert-and-return path). -/
structure SendOutcome where
  final : SessionSt
  networkCalled : Bool
  gateBlocked : Bool
deriving DecidableEq, Repr

/-- The `finally` block of `handleSend`: stop loading, clear the URL-load
suppression flag, dispatch a `conversations:refresh` event, and for an
unauthenticated caller write `guestCountState + 1` (the captured counter
value plus one) back to storage and state. -/
def finallyCleanup (authed : Bool) (capturedCount : Int) (st : SessionSt) :
    SessionSt :=
  { st with
      loading := false,
      suppressUrlLoad := false,
      refreshCount := st.refreshCount + 1,
      guestCount := if authed then st.guestCount else capturedCount + 1 }

/-- Full model of `handleSend`: the guest-gate alert path, the `canSend`
guard, the user/assistant placeholder append, the streaming read loop, the
catch branch appending a system error message, and the `finally` cleanup. -/
def runSend (hydrated authed : Bool) (input : String) (st0 : SessionSt)
    (chunks : List String) (ending : StreamEnd) : SendOutcome :=
  let guestBlocked := hydrated && !authed && decide (st0.guestCount ≥ 3)
  if !authed && guestBlocked then
    { final := st0, networkCalled := false, gateBlocked := true }
  else
    let canSend := (jsTrim input != "") && !st0.loading && !guestBlocked
    if !canSend then
      { final := st0, networkCalled := false, gateBlocked := false }
    else
      let ctx : SendCtx := { capturedCid := st0.conversationId }
      let st1 : SessionSt :=
        { st0 with
            messages := st0.messages ++
              [{ role := Role.user, content := input },
               { role := Role.assistant, content := "" }],
            loading := true }
      let afterTry : SessionSt :=
        match ending with
        | StreamEnd.httpError status =>
          { st1 with
              messages := st1.messages ++
                [{ role := Role.system,
                   content := "Error: Request failed (" ++ toString status ++ ")" }] }
        | StreamEnd.done => (runChunks ctx (st1, "") chunks).1
        | StreamEnd.aborted msg =>
          let st2 := (runChunks ctx (st1, "") chunks).1
          { st2 with
              messages := st2.messages ++
                [{ role := Role.system, content := "Error: " ++ msg }] }
      { final := finallyCleanup authed st0.guestCount afterTry,
        networkCalled := true, gateBlocked := false }

/-! ### The navigation / history-load effect

The `useEffect` reacting to the URL `c` parameter in `page.tsx`: on a truthy
id different from the current one it sets `conversationId` and starts an
async history fetch; when that fetch resolves it applies
`setMessages(data.reverse())` with no check that the id it was issued for is
still the current one. The model runs a trace of navigation changes and
fetch resolutions; `histories id` is the backend's (newest-first) message
list for conversation `id`. -/

/-- State touched by the history-load effect: the `conversationId` state,
the `messages` state, and the ids of issued, not-yet-resolved history
fetches (in issue order). -/
structure NavSt where
  conversationId : Option Int
  messages : List Message
  pending : List Int
deriving DecidableEq, Repr

/-- External triggers of the effect: a navigation change carrying the parsed
`c` parameter (`none` when absent), or the resolution of the in-flight
history fetch issued for `id`. -/
inductive NavEv where
  | nav : Option Int → NavEv
  | resolve : Int → NavEv
deriving DecidableEq, Repr

/-- One trigger of the history-load effect. The suppression flag and the
`loading` flag are false here (no active stream in the scenarios of this
effect's race). A resolution applies the reversed newest-first history
unconditionally, exactly as the `then`-continuation in the effect does. -/
def navStep (histories : Int → List Message) (st : NavSt) : NavEv → NavSt
  | NavEv.nav c =>
    match c with
    | some n =>
      if n != 0 then
        if some n != st.conversationId then
          { st with conversationId := some n, pending := st.pending ++ [n] }
        else st
      else
        if st.conversationId != none then
          { st with conversationId := none, messages := [] }
        else st
    | none =>
      if st.conversationId != none then
        { st with conversationId := none, messages := [] }
      else st
  | NavEv.resolve id =>
    if st.pending.contains id then
      { st with messages := (histories id).reverse, pending := st.pending.erase id }
    else st

/-- Run a trace of navigation and resolution events. -/
def runNav (histories : Int → List Message) (st : NavSt) (evs : List NavEv) :
    NavSt :=
  evs.foldl (navStep histories) st

/-! ### The forwarding proxy

Model of `handler` in `src/client/app/api/proxy/[...path]/route.ts`. The
NextAuth token (from `getToken`) and the freshly generated identifier (from
`crypto.randomUUID()`; the `Math.random` fallback is the same for this model)
are inputs, since they come from collaborators outside this repository. -/

/-- The cookie written through `response.cookies.set`. -/
structure CookieSet where
  name : String
  value : String
  path : String
  sameSite : String
  httpOnly : Bool
  secure : Bool
  maxAge : Nat
deriving DecidableEq, Repr

/-- An inbound request as the handler reads it: method, catch-all path
segments, the header map (Next.js request headers iterate with lowercase
names), the `guest_id` cookie value if present, and the body text. -/
structure ProxyReq where
  method : String
  pathSegments : List String
  headers : List (String × String)
  guestCookie : Option String
  bodyText : String
deriving DecidableEq, Repr

/-- The outbound fetch the handler issues, plus the cookie side effect on
the response path. -/
structure ProxyOut where
  url : String
  method : String
  headers : List (String × String)
  body : Option String
  redirectMode : String
  setCookie : Option CookieSet
deriving DecidableEq, Repr

/-- Model of `s.toLowerCase()` for ASCII header names. -/
def lowerStr (s : String) : String :=
  String.mk (s.toList.map Char.toLower)

/-- JS object property assignment on the header record: replace the value of
an existing key, otherwise append the new entry. -/
def setHeader (hs : List (String × String)) (k v : String) :
    List (String × String) :=
  if hs.any (fun kv => kv.1 == k) then
    hs.map (fun kv => if kv.1 == k then (k, v) else kv)
  else hs ++ [(k, v)]

/-- First-match header lookup. -/
def getHeader (hs : List (String × String)) (k : String) : Option String :=
  (hs.find? (fun kv => kv.1 == k)).map (fun kv => kv.2)

/-- The truthy value of `req.cookies.get("guest_id")?.value`: an empty
cookie value is falsy and treated like an absent cookie by both checks in
the handler. -/
def cookieVal (req : ProxyReq) : Option String :=
  match req.guestCookie with
  | some s => if s == "" then none else some s
  | none => none

/-- Model of the proxy `handler`: path concatenation onto the backend base,
dropping `host`/`connection`, attaching `authorization` (when a token
exists) and `x-guest-id`, body only for non-GET/HEAD methods, manual
redirects, and the first-contact `guest_id` cookie write. -/
def proxyHandler (apiBase : String) (token : Option String) (freshId : String)
    (req : ProxyReq) : ProxyOut :=
  let url := apiBase ++ "/" ++ String.intercalate "/" req.pathSegments
  let base := req.headers.filter
    (fun kv => !(lowerStr kv.1 == "host" || lowerStr kv.1 == "connection"))
  let withAuth :=
    match token with
    | some t => setHeader base "authorization" ("Bearer " ++ t)
    | none => base
  let guestId := (cookieVal req).getD freshId
  let withGuest :=
    if guestId != "" then setHeader withAuth "x-guest-id" guestId else withAuth
  let body :=
    if req.method == "GET" || req.method == "HEAD" then none
    else some req.bodyText
  let setC :=
    if guestId != "" && (cookieVal req).isNone then
      some { name := "guest_id", value := guestId, path := "/",
             sameSite := "lax", httpOnly := false, secure := false,
             maxAge := 60 * 60 * 24 * 365 }
    else none
  { url := url, method := req.method, headers := withGuest, body := body,
    redirectMode := "manual", setCookie := setC }

/-! ### Helper definitions for the statements -/

/-- Concatenation of a list of strings, `t1 ++ .. ++ tn`. -/
def strConcat : List String → String
  | [] => ""
  | s :: rest => s ++ strConcat rest

/-- A line free of line separators (it cannot be split by `/\r?\n/`). -/
def cleanLine (l : String) : Bool :=
  l.toList.all (fun c => c != '\n' && c != '\r')

/-- The text chunk delivering the given lines, each terminated by a
newline. -/
def chunkOfLines (ls : List String) : String :=
  String.mk ((ls.map (fun l => l.toList ++ ['\n'])).flatten)

/-- Content of the nearest trailing assistant message, if any. -/
def lastAssistantContent : List Message → Option String
  | [] => none
  | m :: rest =>
    match lastAssistantContent rest with
    | some c => some c
    | none => if m.role == Role.assistant then some m.content else none

/-- Whether the sequence contains an assistant entry. -/
def hasAssistant (msgs : List Message) : Bool :=
  msgs.any (fun x => x.role == Role.assistant)

/-- The payload `JSON.parse` yields for a ContentDelta data line,
`\x7b"content": s\x7d`. -/
def contentObj (s : String) : Json :=
  Json.obj [("content", Json.str s)]

/-- A line that carries a ContentDelta frame with text `t`: it contains no
line separator and, in any state, processing it appends exactly `t` to the
assistant buffer and writes the buffer into the trailing assistant
message. -/
def DeltaLine (t l : String) : Prop :=
  cleanLine l = true ∧
  ∀ (ctx : SendCtx) (st : SessionSt) (buf : String),
    processLine ctx (st, buf) l = contentStep st buf t

/-! ### Concrete states and requests used by witnesses and
counterexamples -/

/-- A fresh session: no locator, no messages, counters at zero. -/
def initSt : SessionSt :=
  { conversationId := none, messages := [], suppressUrlLoad := false,
    urlC := none, refreshCount := 0, guestCount := 0, loading := false }

/-- The user message of the examples. -/
def mUserHi : Message := { role := Role.user, content := "hi" }

/-- Session state right after a send appended the user message and the
empty assistant placeholder. -/
def stC1 : SessionSt :=
  { initSt with
      messages := [mUserHi, { role := Role.assistant, content := "" }] }

/-- Session state containing no assistant entry. -/
def stNoAssistant : SessionSt := { initSt with messages := [mUserHi] }

/-- A data line carrying the ContentDelta "Hel". -/
def lineHel : String := "data: \x7b\"content\":\"Hel\"\x7d"

/-- A data line carrying the ContentDelta "lo". -/
def lineLo : String := "data: \x7b\"content\":\"lo\"\x7d"

/-- A Meta payload whose conversationId is the falsy number 0. -/
def metaZeroObj : Json :=
  Json.obj [("meta", Json.obj [("conversationId", Json.num 0)])]

/-- Example backend histories (newest-first) for the navigation model. -/
def histEx : Int → List Message := fun i =>
  if i = 1 then [{ role := Role.assistant, content := "h1" }]
  else if i = 2 then [{ role := Role.assistant, content := "h2" }]
  else []

/-- A proxied request that already carries a `guest_id` cookie and an
inbound `x-guest-id` header of its own. -/
def reqCookie : ProxyReq :=
  { method := "POST", pathSegments := ["api", "v1", "chat", "stream"],
    headers := [("x-guest-id", "A"), ("accept", "text/event-stream")],
    guestCookie := some "B", bodyText := "\x7b\x7d" }

/-- A proxied request with no `guest_id` cookie. -/
def reqNoCookie : ProxyReq :=
  { method := "GET", pathSegments := ["api", "v1", "models"], headers := [],
    guestCookie := none, bodyText := "" }

/-- A proxied request that carries the hop-only `host` and `connection`
headers next to an ordinary one. -/
def reqWithHop : ProxyReq :=
  { method := "POST", pathSegments := ["api", "v1", "chat", "stream"],
    headers := [("host", "localhost:3000"), ("connection", "keep-alive"),
                ("accept", "text/event-stream")],
    guestCookie := some "B", bodyText := "\x7b\x7d" }

/-! ### Lemmas on line splitting -/

theorem splitLinesAux_cons_nl (rest acc : List Char) :
    splitLinesAux ('\n' :: rest) acc =
      String.mk acc.reverse :: splitLinesAux rest [] := rfl

theorem splitLinesAux_cons_other (c : Char) (rest acc : List Char)
    (h1 : c ≠ '\n') (h2 : c ≠ '\r') :
    splitLinesAux (c :: rest) acc = splitLinesAux rest (c :: acc) := by
  rw [splitLinesAux.eq_def]
  split
  · next heq => simp at heq
  · next heq =>
    injection heq with e1 e2
    exact absurd e1 h1
  · next heq =>
    injection heq with e1 e2
    exact absurd e1 h2
  · next heq =>
    injection heq with e1 e2
    subst e1
    subst e2
    rfl

theorem splitLinesAux_line (l rest acc : List Char)
    (h : ∀ c ∈ l, c ≠ '\n' ∧ c ≠ '\r') :
    splitLinesAux (l ++ '\n' :: rest) acc =
      String.mk (acc.reverse ++ l) :: splitLinesAux rest [] := by
  induction l generalizing acc with
  | nil => simp [splitLinesAux_cons_nl]
  | cons c l' ih =>
    have hc := h c (by simp)
    rw [List.cons_append, splitLinesAux_cons_other c _ _ hc.1 hc.2,
        ih (c :: acc) (fun x hx => h x (List.mem_cons_of_mem _ hx))]
    simp

theorem mk_toList (s : String) : String.mk s.toList = s := rfl

theorem cleanLine_chars {l : String} (h : cleanLine l = true) :
    ∀ c ∈ l.toList, c ≠ '\n' ∧ c ≠ '\r' := by
  intro c hc
  have := List.all_eq_true.1 h c hc
  constructor
  · intro e; subst e; simp at this
  · intro e; subst e; simp at this

theorem splitLines_chunkOfLines (ls : List String)
    (h : ∀ l ∈ ls, cleanLine l = true) :
    splitLines (chunkOfLines ls) = ls ++ [""] := by
  induction ls with
  | nil => rfl
  | cons l ls' ih =>
    show splitLinesAux (((l.toList ++ ['\n']) :: ls'.map _).flatten) [] = _
    rw [List.flatten_cons, List.append_assoc, List.singleton_append,
        splitLinesAux_line _ _ _ (cleanLine_chars (h l (by simp)))]
    show _ :: splitLines (chunkOfLines ls') = _
    rw [ih (fun x hx => h x (List.mem_cons_of_mem _ hx))]
    simp [mk_toList]

theorem processLine_empty (ctx : SendCtx) (acc : SessionSt × String) :
    processLine ctx acc "" = acc := rfl

theorem processChunk_chunkOfLines (ctx : SendCtx) (acc : SessionSt × String)
    (ls : List String) (h : ∀ l ∈ ls, cleanLine l = true) :
    processChunk ctx acc (chunkOfLines ls) = ls.foldl (processLine ctx) acc := by
  unfold processChunk
  rw [splitLines_chunkOfLines ls h, List.foldl_append]
  rfl

theorem runChunks_chunkOfLines (ctx : SendCtx) (css : List (List String))
    (h : ∀ ls ∈ css, ∀ l ∈ ls, cleanLine l = true) (acc : SessionSt × String) :
    runChunks ctx acc (css.map chunkOfLines) =
      css.flatten.foldl (processLine ctx) acc := by
  induction css generalizing acc with
  | nil => rfl
  | cons ls css' ih =>
    show runChunks ctx (processChunk ctx acc (chunkOfLines ls))
      (css'.map chunkOfLines) = _
    rw [processChunk_chunkOfLines ctx acc ls (h ls (by simp)),
        ih (fun x hx => h x (List.mem_cons_of_mem _ hx)),
        List.flatten_cons, List.foldl_append]

/-! ### Lemmas on the message sequence -/

theorem lastAssistantContent_of_no_assistant (msgs : List Message)
    (h : hasAssistant msgs = false) : lastAssistantContent msgs = none := by
  induction msgs with
  | nil => rfl
  | cons m rest ih =>
    simp only [hasAssistant, List.any_cons, Bool.or_eq_false_iff] at h
    unfold lastAssistantContent
    rw [ih (by simpa [hasAssistant] using h.2)]
    simp [h.1]

theorem hasAssistant_of_lastAssistantContent {msgs : List Message}
    (h : (lastAssistantContent msgs).isSome) : hasAssistant msgs = true := by
  induction msgs with
  | nil => simp [lastAssistantContent] at h
  | cons m rest ih =>
    unfold lastAssistantContent at h
    simp only [hasAssistant, List.any_cons, Bool.or_eq_true]
    cases hr : lastAssistantContent rest with
    | some cr => exact Or.inr (by simpa [hasAssistant] using ih (by simp [hr]))
    | none =>
      rw [hr] at h
      by_cases hm : m.role == Role.assistant
      · exact Or.inl hm
      · simp [hm] at h

theorem setLastAssistant_no_assistant (msgs : List Message) (b : String)
    (h : hasAssistant msgs = false) : setLastAssistant msgs b = msgs := by
  induction msgs with
  | nil => rfl
  | cons m rest ih =>
    simp only [hasAssistant, List.any_cons, Bool.or_eq_false_iff] at h
    unfold setLastAssistant
    rw [show (rest.any fun x => x.role == Role.assistant) = false from h.2]
    simp only [Bool.false_eq_true, if_false, h.1,
      ih (by simpa [hasAssistant] using h.2)]

theorem setLastAssistant_content (msgs : List Message) (b : String)
    (h : hasAssistant msgs = true) :
    lastAssistantContent (setLastAssistant msgs b) = some b := by
  induction msgs with
  | nil => simp [hasAssistant] at h
  | cons m rest ih =>
    unfold setLastAssistant
    cases hr : rest.any fun x => x.role == Role.assistant with
    | true =>
      simp only [hr, if_true]
      unfold lastAssistantContent
      rw [ih (by simpa [hasAssistant] using hr)]
    | false =>
      have hm : m.role == Role.assistant := by
        simp only [hasAssistant, List.any_cons, hr, Bool.or_false] at h
        exact h
      simp only [hr, Bool.false_eq_true, if_false, hm, if_true]
      unfold lastAssistantContent
      rw [lastAssistantContent_of_no_assistant rest
        (by simpa [hasAssistant] using hr)]
      simp [hm]

theorem setLastAssistant_snoc (xs : List Message) (c b : String) :
    setLastAssistant (xs ++ [{ role := Role.assistant, content := c }]) b =
      xs ++ [{ role := Role.assistant, content := b }] := by
  induction xs with
  | nil => rfl
  | cons x xs' ih =>
    rw [List.cons_append]
    unfold setLastAssistant
    have hany : ((xs' ++ [({ role := Role.assistant, content := c } : Message)]).any
        fun m => m.role == Role.assistant) = true := by
      rw [List.any_append]
      simp only [List.any_cons, List.any_nil, Bool.or_false, Bool.or_eq_true]
      exact Or.inr rfl
    rw [hany]
    simp only [if_true, ih, List.cons_append]

/-! ### Lemmas on the stream loop -/

theorem foldl_deltaLines (ts lines : List String)
    (hfa : List.Forall₂ DeltaLine ts lines) (ctx : SendCtx) :
    ∀ (st : SessionSt) (buf : String) (base : List Message),
    st.messages = base ++ [{ role := Role.assistant, content := buf }] →
    lines.foldl (processLine ctx) (st, buf) =
      ({ st with messages := base ++
          [{ role := Role.assistant, content := buf ++ strConcat ts }] },
        buf ++ strConcat ts) := by
  induction hfa with
  | nil =>
    intro st buf base hm
    cases st
    simp only [List.foldl_nil, strConcat]
    simp_all
  | cons hd tl ih =>
    rename_i t ts' l ls'
    intro st buf base hm
    simp only [List.foldl_cons]
    rw [hd.2 ctx st buf]
    unfold contentStep
    rw [hm, setLastAssistant_snoc]
    rw [ih _ (buf ++ t) base rfl]
    simp [strConcat, String.append_assoc]

theorem deltaLine_of_mem {ts lines : List String}
    (hfa : List.Forall₂ DeltaLine ts lines) :
    ∀ l ∈ lines, ∃ t, DeltaLine t l := by
  induction hfa with
  | nil => intro l hl; simp at hl
  | cons hd tl ih =>
    intro l hl
    rcases List.mem_cons.1 hl with hl | hl
    · subst hl; exact ⟨_, hd⟩
    · exact ih l hl

theorem processObj_guestCount (ctx : SendCtx) (st : SessionSt) (buf : String)
    (o : Json) : (processObj ctx st buf o).1.guestCount = st.guestCount := by
  unfold processObj contentStep
  dsimp only
  repeat' split
  all_goals rfl

theorem processLine_guestCount (ctx : SendCtx) (acc : SessionSt × String)
    (l : String) : (processLine ctx acc l).1.guestCount = acc.1.guestCount := by
  unfold processLine
  dsimp only
  repeat' split
  all_goals first
    | rfl
    | exact processObj_guestCount ctx acc.1 acc.2 _

theorem foldl_guestCount (ctx : SendCtx)
    (f : SendCtx → (SessionSt × String) → String → SessionSt × String)
    (hf : ∀ acc l, ((f ctx acc l).1).guestCount = acc.1.guestCount) :
    ∀ (l : List String) (acc : SessionSt × String),
      ((l.foldl (f ctx) acc).1).guestCount = acc.1.guestCount := by
  intro l
  induction l with
  | nil => intro acc; rfl
  | cons x xs ih => intro acc; rw [List.foldl_cons, ih, hf]

theorem runChunks_guestCount (ctx : SendCtx) (acc : SessionSt × String)
    (chunks : List String) :
    ((runChunks ctx acc chunks).1).guestCount = acc.1.guestCount := by
  unfold runChunks
  refine foldl_guestCount ctx processChunk (fun acc l => ?_) chunks acc
  unfold processChunk
  exact foldl_guestCount ctx processLine
    (fun a s => processLine_guestCount ctx a s) _ acc

/-! ### Lemmas on the proxy header map -/

theorem mem_setHeader_of_ne (hs : List (String × String)) (k v k' v' : String)
    (h : (k', v') ∈ hs) (hne : k' ≠ k) : (k', v') ∈ setHeader hs k v := by
  unfold setHeader
  split
  · refine List.mem_map.2 ⟨(k', v'), h, ?_⟩
    have : (k' == k) = false := by simpa using hne
    simp [this]
  · exact List.mem_append_left _ h

theorem getHeader_setHeader (hs : List (String × String)) (k v : String) :
    getHeader (setHeader hs k v) k = some v := by
  unfold setHeader getHeader
  split
  · next hany =>
    induction hs with
    | nil => simp at hany
    | cons kv rest ih =>
      simp only [List.map_cons, List.find?]
      by_cases hk : kv.1 == k
      · simp [hk]
      · simp only [hk, Bool.false_eq_true, if_false]
        have hrest : (rest.any fun kv => kv.1 == k) = true := by
          simp only [List.any_cons, Bool.or_eq_true] at hany
          rcases hany with h1 | h2
          · exact absurd h1 hk
          · exact h2
        exact ih hrest
  · next hany =>
    have : hs.find? (fun kv => kv.1 == k) = none := by
      rw [List.find?_eq_none]
      intro x hx
      by_contra hc
      exact hany (List.any_eq_true.2 ⟨x, hx, by simpa using hc⟩)
    rw [List.find?_append, this]
    simp [List.find?]

theorem mem_setHeader (hs : List (String × String)) (k v k' v' : String)
    (h : (k', v') ∈ setHeader hs k v) : (k', v') ∈ hs ∨ (k', v') = (k, v) := by
  unfold setHeader at h
  split at h
  · rcases List.mem_map.1 h with ⟨kv, hkv, heq⟩
    by_cases hk : kv.1 == k
    · right
      rw [if_pos hk] at heq
      exact heq.symm
    · left
      rw [if_neg hk] at heq
      rwa [heq] at hkv
  · rcases List.mem_append.1 h with h1 | h1
    · exact Or.inl h1
    · right
      simpa using h1

theorem find?_map_setkey (k v k' : String) (hne : k' ≠ k) :
    ∀ hs : List (String × String),
      List.find? (fun p => p.1 == k')
        (hs.map (fun kv => if kv.1 == k then (k, v) else kv)) =
      List.find? (fun p => p.1 == k') hs := by
  intro hs
  have hkk : (k == k') = false := by simpa using fun e => hne e.symm
  induction hs with
  | nil => rfl
  | cons kv rest ih =>
    simp only [List.map_cons, List.find?]
    by_cases hk : kv.1 == k
    · have hkv1 : kv.1 = k := by simpa using hk
      simp only [hk, if_true]
      simp only [hkk, hkv1]
      exact ih
    · simp only [hk, Bool.false_eq_true, if_false]
      by_cases hk2 : kv.1 == k'
      · simp only [hk2]
      · simp only [hk2]
        exact ih

theorem getHeader_setHeader_ne (hs : List (String × String)) (k v k' : String)
    (hne : k' ≠ k) : getHeader (setHeader hs k v) k' = getHeader hs k' := by
  unfold setHeader getHeader
  split
  · rw [find?_map_setkey k v k' hne hs]
  · rw [List.find?_append]
    have hsingle : List.find? (fun p => p.1 == k') [(k, v)] = none := by
      have hkk : (k == k') = false := by simpa using fun e => hne e.symm
      simp [List.find?, hkk]
    rw [hsingle]
    cases hfind : List.find? (fun p => p.1 == k') hs <;> simp

theorem headers_key_cases (apiBase : String) (token : Option String)
    (freshId : String) (req : ProxyReq) (kf vf : String)
    (h : (kf, vf) ∈ (proxyHandler apiBase token freshId req).headers) :
    ((kf, vf) ∈ req.headers ∧
      (!(lowerStr kf == "host" || lowerStr kf == "connection")) = true) ∨
    kf = "authorization" ∨ kf = "x-guest-id" := by
  unfold proxyHandler at h
  dsimp only at h
  split at h
  · rcases mem_setHeader _ _ _ _ _ h with h | heq
    · split at h
      · rcases mem_setHeader _ _ _ _ _ h with h | heq2
        · exact Or.inl (List.mem_filter.1 h)
        · exact Or.inr (Or.inl (Prod.mk.inj heq2).1)
      · exact Or.inl (List.mem_filter.1 h)
    · exact Or.inr (Or.inr (Prod.mk.inj heq).1)
  · split at h
    · rcases mem_setHeader _ _ _ _ _ h with h | heq2
      · exact Or.inl (List.mem_filter.1 h)
      · exact Or.inr (Or.inl (Prod.mk.inj heq2).1)
    · exact Or.inl (List.mem_filter.1 h)

theorem proxyHandler_auth_header (apiBase : String) (t freshId : String)
    (req : ProxyReq) :
    getHeader (proxyHandler apiBase (some t) freshId req).headers
      "authorization" = some ("Bearer " ++ t) := by
  unfold proxyHandler
  dsimp only
  split
  · rw [getHeader_setHeader_ne _ _ _ _ (by decide)]
    exact getHeader_setHeader _ _ _
  · exact getHeader_setHeader _ _ _

/-! ### The claims -/

/-- Claim C1, counterexample. The claim asserts chunk-boundary independence:
the final assistant content equals the concatenation of the delivered
ContentDelta texts for every way the stream bytes are chunked across reads.
The loop in `handleSend` splits each chunk on line boundaries independently
and keeps no carry-over for a line split across reads, so the same bytes
delivered as `"da"` then `"ta: ..hello..\n"` lose the frame entirely: the
one-chunk delivery yields assistant content "hello", the split delivery
yields "". -/
theorem c1_chunk_boundary_counterexample :
    strConcat ["da", "ta: \x7b\"content\":\"hello\"\x7d\n"] =
      strConcat ["data: \x7b\"content\":\"hello\"\x7d\n"] ∧
    lastAssistantContent (runChunks ⟨none⟩ (stC1, "")
      ["data: \x7b\"content\":\"hello\"\x7d\n"]).1.messages = some "hello" ∧
    lastAssistantContent (runChunks ⟨none⟩ (stC1, "")
      ["da", "ta: \x7b\"content\":\"hello\"\x7d\n"]).1.messages = some "" := by
  refine ⟨rfl, rfl, rfl⟩

/-- Claim C1, amended. For every sequence of ContentDelta frames with texts
t1..tn delivered on one stream, the final assistant message content equals
the concatenation t1+..+tn for every chunking of the stream that splits only
at line boundaries (each data line delivered within a single read). The
unrestricted claim fails because a line split across reads is dropped (see
the counterexample). -/
theorem c1_line_aligned_concatenation (ts lines : List String)
    (hfa : List.Forall₂ DeltaLine ts lines)
    (css : List (List String)) (hcss : css.flatten = lines)
    (ctx : SendCtx) (st0 : SessionSt) (buf0 : String) (base : List Message)
    (hm : st0.messages = base ++ [{ role := Role.assistant, content := buf0 }]) :
    runChunks ctx (st0, buf0) (css.map chunkOfLines) =
      ({ st0 with messages := base ++
          [{ role := Role.assistant, content := buf0 ++ strConcat ts }] },
        buf0 ++ strConcat ts) := by
  have hclean : ∀ ls ∈ css, ∀ l ∈ ls, cleanLine l = true := by
    intro ls hls l hl
    have hlin : l ∈ lines := by
      rw [← hcss]
      exact List.mem_flatten.2 ⟨ls, hls, hl⟩
    obtain ⟨t, ht⟩ := deltaLine_of_mem hfa l hlin
    exact ht.1
  rw [runChunks_chunkOfLines ctx css hclean (st0, buf0), hcss]
  exact foldl_deltaLines ts lines hfa ctx st0 buf0 base hm

/-- Claim C1, witness: the frames "Hel" and "lo" delivered in two separate
line-aligned reads accumulate to "Hello" in the trailing assistant
message. -/
theorem c1_line_aligned_concatenation_witness :
    runChunks ⟨none⟩ (stC1, "") ([[lineHel], [lineLo]].map chunkOfLines) =
      ({ stC1 with messages := [mUserHi,
          { role := Role.assistant, content := "" ++ strConcat ["Hel", "lo"] }] },
        "" ++ strConcat ["Hel", "lo"]) :=
  c1_line_aligned_concatenation ["Hel", "lo"] [lineHel, lineLo]
    (List.Forall₂.cons ⟨by decide, fun ctx st buf => rfl⟩
      (List.Forall₂.cons ⟨by decide, fun ctx st buf => rfl⟩ List.Forall₂.nil))
    [[lineHel], [lineLo]] rfl ⟨none⟩ stC1 "" [mUserHi] rfl

/-- Claim C2, failing input. The claim says the locator is adopted only when
the session currently has no locator and is immutable for the rest of the
stream. The loop's guard `conversationId == null` reads the React state
captured when `handleSend` was created, which stays `null` for the whole
stream, so a second Meta frame (here id 9, after id 7 was adopted and the
session already had locator 7) passes the guard again and overwrites the
locator and the URL — contradicting the claim and the code's own comment
"Capture meta conversationId once". -/
theorem c2_second_meta_overwrites_locator :
    ((runChunks ⟨none⟩ (stC1, "")
      ["data: \x7b\"meta\":\x7b\"conversationId\":7\x7d\x7d\n"]).1.conversationId
        = some 7) ∧
    ((runChunks ⟨none⟩ (stC1, "")
      ["data: \x7b\"meta\":\x7b\"conversationId\":7\x7d\x7d\n",
       "data: \x7b\"meta\":\x7b\"conversationId\":9\x7d\x7d\n"]).1.conversationId
        = some 9) ∧
    ((runChunks ⟨none⟩ (stC1, "")
      ["data: \x7b\"meta\":\x7b\"conversationId\":7\x7d\x7d\n",
       "data: \x7b\"meta\":\x7b\"conversationId\":9\x7d\x7d\n"]).1.urlC
        = some 9) := by
  refine ⟨rfl, rfl, rfl⟩

/-- Claim C3, counterexample. The claim says a stale history-fetch result
never replaces the message sequence. The effect's continuation applies
`setMessages(data.reverse())` without checking which locator the fetch was
issued for: after navigating 1 then 2, if the fetch for 2 resolves before
the fetch for 1, the final state has locator 2 but conversation 1's
history. -/
theorem c3_stale_fetch_counterexample :
    (runNav histEx { conversationId := none, messages := [], pending := [] }
      [NavEv.nav (some 1), NavEv.nav (some 2), NavEv.resolve 2,
       NavEv.resolve 1]).conversationId = some 2 ∧
    (runNav histEx { conversationId := none, messages := [], pending := [] }
      [NavEv.nav (some 1), NavEv.nav (some 2), NavEv.resolve 2,
       NavEv.resolve 1]).messages =
      [{ role := Role.assistant, content := "h1" }] ∧
    (runNav histEx { conversationId := none, messages := [], pending := [] }
      [NavEv.nav (some 1), NavEv.nav (some 2), NavEv.resolve 2,
       NavEv.resolve 1]).messages ≠ (histEx 2).reverse := by
  refine ⟨rfl, rfl, by decide⟩

/-- Claim C3, amended. Fetch results are applied unconditionally in
resolution order (last resolution wins); when the two racing fetches
resolve in the order they were issued, the final message sequence is the
history of the currently-requested locator. -/
theorem c3_in_order_resolution (histories : Int → List Message) (a b : Int)
    (st0 : NavSt) (ha : a ≠ 0) (hb : b ≠ 0) (hab : a ≠ b)
    (h0 : st0.conversationId ≠ some a) :
    (runNav histories st0
      [NavEv.nav (some a), NavEv.nav (some b), NavEv.resolve a,
       NavEv.resolve b]).conversationId = some b ∧
    (runNav histories st0
      [NavEv.nav (some a), NavEv.nav (some b), NavEv.resolve a,
       NavEv.resolve b]).messages = (histories b).reverse := by
  have ha' : (a != 0) = true := by simpa using ha
  have hb' : (b != 0) = true := by simpa using hb
  have h1 : navStep histories st0 (NavEv.nav (some a)) =
      { st0 with conversationId := some a, pending := st0.pending ++ [a] } := by
    unfold navStep
    simp only [ha', if_true]
    rw [if_pos (by simpa using (fun e => h0 e.symm))]
  have h2 : navStep histories
      { st0 with conversationId := some a, pending := st0.pending ++ [a] }
      (NavEv.nav (some b)) =
      { st0 with conversationId := some b,
                 pending := (st0.pending ++ [a]) ++ [b] } := by
    unfold navStep
    simp only [hb', if_true]
    rw [if_pos (by simpa using (fun e => hab e.symm))]
  have hmema : ((st0.pending ++ [a]) ++ [b]).contains a = true := by
    simp
  have h3 : navStep histories
      { st0 with conversationId := some b,
                 pending := (st0.pending ++ [a]) ++ [b] }
      (NavEv.resolve a) =
      { st0 with conversationId := some b,
                 messages := (histories a).reverse,
                 pending := (((st0.pending ++ [a]) ++ [b]).erase a) } := by
    unfold navStep
    dsimp only
    rw [if_pos hmema]
  have hmemb : ((((st0.pending ++ [a]) ++ [b]).erase a)).contains b = true := by
    refine List.elem_eq_true_of_mem ?_
    refine (List.mem_erase_of_ne (fun e => hab e.symm)).2 ?_
    simp
  have h4 : navStep histories
      { st0 with conversationId := some b,
                 messages := (histories a).reverse,
                 pending := (((st0.pending ++ [a]) ++ [b]).erase a) }
      (NavEv.resolve b) =
      { st0 with conversationId := some b,
                 messages := (histories b).reverse,
                 pending := ((((st0.pending ++ [a]) ++ [b]).erase a).erase b) } := by
    unfold navStep
    dsimp only
    rw [if_pos hmemb]
  have hrun : runNav histories st0
      [NavEv.nav (some a), NavEv.nav (some b), NavEv.resolve a,
       NavEv.resolve b] =
      { st0 with conversationId := some b,
                 messages := (histories b).reverse,
                 pending := ((((st0.pending ++ [a]) ++ [b]).erase a).erase b) } := by
    show navStep histories (navStep histories (navStep histories
      (navStep histories st0 (NavEv.nav (some a))) (NavEv.nav (some b)))
      (NavEv.resolve a)) (NavEv.resolve b) = _
    rw [h1, h2, h3, h4]
  rw [hrun]
  exact ⟨rfl, rfl⟩

/-- Claim C3, witness: with locators 1 and 2 and in-order resolutions, the
final sequence is conversation 2's history reversed to chronological
order. -/
theorem c3_in_order_resolution_witness :
    (runNav histEx { conversationId := none, messages := [], pending := [] }
      [NavEv.nav (some 1), NavEv.nav (some 2), NavEv.resolve 1,
       NavEv.resolve 2]).conversationId = some 2 ∧
    (runNav histEx { conversationId := none, messages := [], pending := [] }
      [NavEv.nav (some 1), NavEv.nav (some 2), NavEv.resolve 1,
       NavEv.resolve 2]).messages = (histEx 2).reverse :=
  c3_in_order_resolution histEx 1 2
    { conversationId := none, messages := [], pending := [] }
    (by decide) (by decide) (by decide) (by decide)

/-- Claim C4: with the gate initialized (hydrated), an unauthenticated
caller is gate-blocked exactly when the guest counter is at least 3; a
gate-blocked send issues no network request; a send proceeding at counter 2
makes the network call and leaves the counter at 3 after the attempt
completes; an authenticated caller is never gate-blocked and never changes
the counter. -/
theorem c4_guest_gate (st0 : SessionSt) (input : String) (chunks : List String)
    (ending : StreamEnd) (hin : jsTrim input ≠ "") (hload : st0.loading = false) :
    ((runSend true false input st0 chunks ending).gateBlocked = true ↔
       st0.guestCount ≥ 3) ∧
    ((runSend true false input st0 chunks ending).gateBlocked = true →
       (runSend true false input st0 chunks ending).networkCalled = false) ∧
    (st0.guestCount = 2 →
       (runSend true false input st0 chunks ending).networkCalled = true ∧
       (runSend true false input st0 chunks ending).final.guestCount = 3) ∧
    ((runSend true true input st0 chunks ending).gateBlocked = false ∧
     (runSend true true input st0 chunks ending).final.guestCount =
       st0.guestCount) := by
  have hin' : (jsTrim input != "") = true := by simpa using hin
  have hload' : (!st0.loading) = true := by simp [hload]
  refine ⟨?_, ?_, ?_, ?_⟩
  · unfold runSend
    by_cases hc : st0.guestCount ≥ 3
    · simp [hc]
    · simp only [decide_eq_true_eq]
      simp only [show decide (st0.guestCount ≥ 3) = false by simpa using hc]
      simp only [Bool.and_false, Bool.not_false, Bool.and_true, Bool.true_and,
        Bool.false_and, Bool.and_self, Bool.not_true, Bool.false_eq_true, if_false]
      split <;> simp [hc]
  · unfold runSend
    dsimp only
    split
    · intro _; rfl
    · split
      · intro hF; simp at hF
      · intro hF; simp at hF
  · intro hc2
    have hdec : decide (st0.guestCount ≥ 3) = false := by
      rw [hc2]; decide
    unfold runSend
    simp only [hdec, Bool.and_false, Bool.not_true, Bool.not_false,
      Bool.true_and, Bool.and_true, Bool.false_and, Bool.false_eq_true, if_false,
      hin', hload', Bool.and_self, if_true]
    constructor
    · trivial
    · show (finallyCleanup false st0.guestCount _).guestCount = 3
      unfold finallyCleanup
      simp [hc2]
  · unfold runSend
    simp only [Bool.not_true, Bool.false_and, Bool.and_false, Bool.false_eq_true,
      if_false, Bool.and_true, Bool.true_and]
    constructor
    · split <;> rfl
    · split
      · rfl
      · show (finallyCleanup true st0.guestCount _).guestCount = st0.guestCount
        unfold finallyCleanup
        simp only [if_true]
        cases ending with
        | httpError status => rfl
        | done =>
          show ((runChunks _ _ chunks).1).guestCount = st0.guestCount
          rw [runChunks_guestCount]
        | aborted msg =>
          show ((runChunks _ _ chunks).1).guestCount = st0.guestCount
          rw [runChunks_guestCount]

/-- Claim C4, witness: a guest send at counter 2 makes the network call and
the counter ends at 3. -/
theorem c4_guest_gate_witness :
    jsTrim "hi" ≠ "" ∧
    (runSend true false "hi" { initSt with guestCount := 2 } []
      StreamEnd.done).networkCalled = true ∧
    (runSend true false "hi" { initSt with guestCount := 2 } []
      StreamEnd.done).final.guestCount = 3 := by
  refine ⟨by decide, ?_⟩
  exact (c4_guest_gate { initSt with guestCount := 2 } "hi" [] StreamEnd.done
    (by decide) rfl).2.2.1 rfl

/-- Claim C5, counterexample. The claim says a user stop is treated as a
normal terminal transition rather than an error. Aborting the in-flight
read rejects the pending `reader.read()`, which the generic catch block
turns into an appended system-role error message — the very presentation
the spec reserves for errors; a naturally completed stream appends no such
entry. -/
theorem c5_abort_error_entry_counterexample :
    (runSend true false "hi" initSt ["data: \x7b\"content\":\"Hel\"\x7d\n"]
      (StreamEnd.aborted "The user aborted a request.")).final.messages =
      [{ role := Role.user, content := "hi" },
       { role := Role.assistant, content := "Hel" },
       { role := Role.system,
         content := "Error: The user aborted a request." }] ∧
    ((runSend true false "hi" initSt ["data: \x7b\"content\":\"Hel\"\x7d\n"]
      (StreamEnd.aborted "The user aborted a request.")).final.messages.any
        (fun m => m.role == Role.system)) = true ∧
    ((runSend true false "hi" initSt ["data: \x7b\"content\":\"Hel\"\x7d\n"]
      StreamEnd.done).final.messages.any
        (fun m => m.role == Role.system)) = false := by
  refine ⟨rfl, rfl, rfl⟩

/-- Claim C5, amended. A user stop preserves the partial assistant content
(nothing is rolled back) and runs the same termination cleanup as natural
completion — suppression flag cleared, loading cleared, the same refresh
notification, guest counter incremented for an anonymous caller — but the
abort is caught by the generic error handler, which additionally appends a
system-role error message. -/
theorem c5_abort_cleanup (st0 : SessionSt) (input : String)
    (chunks : List String) (msg : String) (hin : jsTrim input ≠ "")
    (hload : st0.loading = false) (hcount : st0.guestCount < 3) :
    (runSend true false input st0 chunks (StreamEnd.aborted msg)).final.messages =
      (runSend true false input st0 chunks StreamEnd.done).final.messages ++
        [{ role := Role.system, content := "Error: " ++ msg }] ∧
    (runSend true false input st0 chunks
      (StreamEnd.aborted msg)).final.suppressUrlLoad = false ∧
    (runSend true false input st0 chunks
      (StreamEnd.aborted msg)).final.loading = false ∧
    (runSend true false input st0 chunks
      (StreamEnd.aborted msg)).final.refreshCount =
      (runSend true false input st0 chunks StreamEnd.done).final.refreshCount ∧
    (runSend true false input st0 chunks
      (StreamEnd.aborted msg)).final.guestCount = st0.guestCount + 1 ∧
    (runSend true false input st0 chunks
      StreamEnd.done).final.suppressUrlLoad = false ∧
    (runSend true false input st0 chunks
      StreamEnd.done).final.guestCount = st0.guestCount + 1 := by
  have hin' : (jsTrim input != "") = true := by simpa using hin
  have hload' : (!st0.loading) = true := by simp [hload]
  have hdec : decide (st0.guestCount ≥ 3) = false :=
    decide_eq_false (not_le.mpr hcount)
  unfold runSend
  simp only [hdec, Bool.and_false, Bool.not_true, Bool.not_false, Bool.true_and,
    Bool.and_true, Bool.false_and, Bool.false_eq_true, if_false, hin', hload',
    Bool.and_self, if_true]
  exact ⟨rfl, rfl, rfl, rfl, rfl, rfl, rfl⟩

/-- Claim C5, witness: aborting after the delta "Hel" keeps the partial
assistant content and differs from natural completion only by the appended
system error entry. -/
theorem c5_abort_cleanup_witness :
    (runSend true false "hi" initSt ["data: \x7b\"content\":\"Hel\"\x7d\n"]
      (StreamEnd.aborted "stopped")).final.messages =
      (runSend true false "hi" initSt ["data: \x7b\"content\":\"Hel\"\x7d\n"]
        StreamEnd.done).final.messages ++
        [{ role := Role.system, content := "Error: " ++ "stopped" }] ∧
    (runSend true false "hi" initSt ["data: \x7b\"content\":\"Hel\"\x7d\n"]
      (StreamEnd.aborted "stopped")).final.guestCount = initSt.guestCount + 1 := by
  have h := c5_abort_cleanup initSt "hi" ["data: \x7b\"content\":\"Hel\"\x7d\n"]
    "stopped" (by decide) rfl (by decide)
  exact ⟨h.1, h.2.2.2.2.1⟩

/-- Claim C6: a content payload whose text begins with the reserved
provider-tag marker "[model:" contributes nothing — the state and buffer
are untouched — while any other content payload contributes exactly its
text to the buffer and to the trailing assistant message. -/
theorem c6_provider_tag_filter (ctx : SendCtx) (st : SessionSt) (buf s : String)
    (h : lastAssistantContent st.messages = some buf) :
    (strStartsWith s "[model:" = true →
       processObj ctx st buf (contentObj s) = (st, buf)) ∧
    (strStartsWith s "[model:" = false →
       (processObj ctx st buf (contentObj s)).2 = buf ++ s ∧
       lastAssistantContent (processObj ctx st buf (contentObj s)).1.messages =
         some (buf ++ s)) := by
  have hmeta : metaCid (contentObj s) = none := rfl
  have hget : getField (contentObj s) "content" = some (Json.str s) := rfl
  unfold processObj contentStep
  rw [hmeta, hget]
  dsimp only
  simp only [truthy, Bool.false_and, Bool.false_eq_true, if_false]
  by_cases hs : s = ""
  · subst hs
    simp only [bne_self_eq_false, Bool.false_eq_true, if_false]
    constructor
    · intro hpre
      simp [strStartsWith, List.isPrefixOf] at hpre
    · intro _
      constructor
      · simp
      · simpa using h
  · simp only [show (s != "") = true by simpa using hs, if_true]
    cases hpre : strStartsWith s "[model:" with
    | true =>
      simp [hpre]
    | false =>
      simp only [hpre, Bool.false_eq_true, if_false]
      refine ⟨fun hT => by simp at hT, fun _ => ⟨by simp, ?_⟩⟩
      exact setLastAssistant_content _ _
        (hasAssistant_of_lastAssistantContent (by simp [h]))

/-- Claim C6, witness: the tag "[model: openai/gpt-4o]" contributes nothing
and "hello" contributes exactly "hello". -/
theorem c6_provider_tag_filter_witness :
    processObj ⟨none⟩ stC1 "" (contentObj "[model: openai/gpt-4o]") =
      (stC1, "") ∧
    lastAssistantContent
      (processObj ⟨none⟩ stC1 "" (contentObj "hello")).1.messages =
      some ("" ++ "hello") := by
  constructor
  · exact (c6_provider_tag_filter ⟨none⟩ stC1 "" "[model: openai/gpt-4o]"
      (by decide)).1 (by decide)
  · exact ((c6_provider_tag_filter ⟨none⟩ stC1 "" "hello"
      (by decide)).2 (by decide)).2

/-- Claim C7, counterexample. The claim says all headers other than `host`
and `connection` are preserved. The handler always assigns the `x-guest-id`
header from the cookie (or a fresh id), overwriting an inbound `x-guest-id`
header: a request carrying `x-guest-id: A` with cookie value "B" is
forwarded with `x-guest-id: B`, not "A". -/
theorem c7_header_override_counterexample :
    ("x-guest-id", "B") ∈
      (proxyHandler "http://localhost:8000" none "fresh" reqCookie).headers ∧
    ("x-guest-id", "A") ∉
      (proxyHandler "http://localhost:8000" none "fresh" reqCookie).headers := by
  refine ⟨by decide, by decide⟩

/-- Claim C7, amended. The proxy forwards to the backend base address by
path concatenation; no forwarded header has a lowercased name `host` or
`connection` (they are removed); every other inbound header is preserved
except `authorization` and `x-guest-id`, which are set from the identity
resolution (when a session token exists the forwarded `authorization`
header is exactly `Bearer` followed by the token, overriding any inbound
value); for GET and HEAD no body is sent, and for every other method the
original body is forwarded unmodified. -/
theorem c7_forwarding (apiBase : String) (token : Option String)
    (freshId : String) (req : ProxyReq) (k v : String)
    (hmem : (k, v) ∈ req.headers)
    (hhost : lowerStr k ≠ "host") (hconn : lowerStr k ≠ "connection")
    (hauth : k ≠ "authorization") (hgid : k ≠ "x-guest-id") :
    (k, v) ∈ (proxyHandler apiBase token freshId req).headers ∧
    (proxyHandler apiBase token freshId req).url =
      apiBase ++ "/" ++ String.intercalate "/" req.pathSegments ∧
    (proxyHandler apiBase token freshId req).method = req.method ∧
    (req.method = "GET" ∨ req.method = "HEAD" →
       (proxyHandler apiBase token freshId req).body = none) ∧
    (req.method ≠ "GET" → req.method ≠ "HEAD" →
       (proxyHandler apiBase token freshId req).body = some req.bodyText) ∧
    (∀ kf vf, (kf, vf) ∈ (proxyHandler apiBase token freshId req).headers →
       lowerStr kf ≠ "host" ∧ lowerStr kf ≠ "connection") ∧
    (∀ t, token = some t →
       getHeader (proxyHandler apiBase token freshId req).headers
         "authorization" = some ("Bearer " ++ t)) := by
  refine ⟨?_, rfl, rfl, ?_, ?_, ?_, ?_⟩
  · unfold proxyHandler
    dsimp only
    have hbase : (k, v) ∈ req.headers.filter
        (fun kv => !(lowerStr kv.1 == "host" || lowerStr kv.1 == "connection")) := by
      refine List.mem_filter.2 ⟨hmem, ?_⟩
      simp only [Bool.not_eq_true', Bool.or_eq_false_iff]
      exact ⟨by simpa using hhost, by simpa using hconn⟩
    have hwithAuth : (k, v) ∈ (match token with
        | some t => setHeader (req.headers.filter
            (fun kv => !(lowerStr kv.1 == "host" || lowerStr kv.1 == "connection")))
            "authorization" ("Bearer " ++ t)
        | none => req.headers.filter
            (fun kv => !(lowerStr kv.1 == "host" || lowerStr kv.1 == "connection"))) := by
      cases token with
      | some t => exact mem_setHeader_of_ne _ _ _ _ _ hbase hauth
      | none => exact hbase
    split
    · exact mem_setHeader_of_ne _ _ _ _ _ hwithAuth hgid
    · exact hwithAuth
  · intro h
    unfold proxyHandler
    dsimp only
    rcases h with h | h <;> simp [h]
  · intro h1 h2
    unfold proxyHandler
    dsimp only
    rw [if_neg]
    simp only [Bool.or_eq_true, beq_iff_eq]
    exact fun hc => hc.elim h1 h2
  · intro kf vf hmemf
    rcases headers_key_cases apiBase token freshId req kf vf hmemf with
      ⟨_, hml⟩ | hk | hk
    · simpa only [Bool.not_eq_true', Bool.or_eq_false_iff,
        beq_eq_false_iff_ne] using hml
    · subst hk
      exact ⟨by decide, by decide⟩
    · subst hk
      exact ⟨by decide, by decide⟩
  · intro t ht
    rw [ht]
    exact proxyHandler_auth_header apiBase t freshId req

/-- Claim C7, witness: on a POST carrying `host`, `connection` and `accept`
headers with a session token, the `accept` header is preserved, the body is
forwarded, the `authorization` header is the bearer token, and no `host`
header survives the forward. -/
theorem c7_forwarding_witness :
    ("accept", "text/event-stream") ∈
      (proxyHandler "http://localhost:8000" (some "tok") "fresh"
        reqWithHop).headers ∧
    (proxyHandler "http://localhost:8000" (some "tok") "fresh"
      reqWithHop).body = some "\x7b\x7d" ∧
    getHeader (proxyHandler "http://localhost:8000" (some "tok") "fresh"
      reqWithHop).headers "authorization" = some ("Bearer " ++ "tok") ∧
    (∀ v, ("host", v) ∉ (proxyHandler "http://localhost:8000" (some "tok")
      "fresh" reqWithHop).headers) := by
  have h := c7_forwarding "http://localhost:8000" (some "tok") "fresh"
    reqWithHop "accept" "text/event-stream" (by decide) (by decide)
    (by decide) (by decide) (by decide)
  refine ⟨h.1, h.2.2.2.2.1 (by decide) (by decide),
    h.2.2.2.2.2.2 "tok" rfl, ?_⟩
  intro v hv
  exact (h.2.2.2.2.2.1 "host" v hv).1 (by decide)

/-- Claim C8, counterexample. The claim says the first-contact `guest_id`
cookie is set with a multi-year expiry. The handler sets
`maxAge := 60 * 60 * 24 * 365`, i.e. 31536000 seconds — exactly one year,
which is less than two years (63072000 seconds), so the expiry is not
multi-year. -/
theorem c8_one_year_cookie_counterexample :
    (proxyHandler "http://localhost:8000" none "f-1234" reqNoCookie).setCookie =
      some { name := "guest_id", value := "f-1234", path := "/",
             sameSite := "lax", httpOnly := false, secure := false,
             maxAge := 31536000 } ∧
    31536000 < 63072000 := by
  refine ⟨rfl, by norm_num⟩

/-- Claim C8, amended. A request carrying a non-empty `guest_id` cookie has
that value forwarded verbatim as the `x-guest-id` header and no new cookie
is set; a request without the cookie gets the freshly generated identifier
as the header and the response sets the cookie with a one-year expiry
(31536000 seconds), path "/", and lax cross-site policy. -/
theorem c8_guest_identity (apiBase : String) (token : Option String)
    (freshId : String) (req : ProxyReq) :
    (∀ s, req.guestCookie = some s → s ≠ "" →
       getHeader (proxyHandler apiBase token freshId req).headers "x-guest-id" =
         some s ∧
       (proxyHandler apiBase token freshId req).setCookie = none) ∧
    (req.guestCookie = none → freshId ≠ "" →
       getHeader (proxyHandler apiBase token freshId req).headers "x-guest-id" =
         some freshId ∧
       (proxyHandler apiBase token freshId req).setCookie =
         some { name := "guest_id", value := freshId, path := "/",
                sameSite := "lax", httpOnly := false, secure := false,
                maxAge := 31536000 }) := by
  constructor
  · intro s hcook hs
    have hval : cookieVal req = some s := by
      unfold cookieVal
      rw [hcook]
      simp [hs]
    unfold proxyHandler
    dsimp only
    rw [hval]
    simp only [Option.getD_some, Option.isSome_some]
    constructor
    · rw [if_pos (by simpa using hs)]
      exact getHeader_setHeader _ _ _
    · simp
  · intro hcook hf
    have hval : cookieVal req = none := by
      unfold cookieVal
      rw [hcook]
    unfold proxyHandler
    dsimp only
    rw [hval]
    simp only [Option.getD_none]
    constructor
    · rw [if_pos (by simpa using hf)]
      exact getHeader_setHeader _ _ _
    · rw [if_pos (show ((freshId != "") &&
        (Option.isNone (none : Option String))) = true by simp [hf])]

/-- Claim C8, witness: the existing cookie value "B" is forwarded verbatim
and no cookie is set. -/
theorem c8_guest_identity_witness :
    getHeader (proxyHandler "http://localhost:8000" none "fresh"
      reqCookie).headers "x-guest-id" = some "B" ∧
    (proxyHandler "http://localhost:8000" none "fresh" reqCookie).setCookie =
      none :=
  (c8_guest_identity "http://localhost:8000" none "fresh" reqCookie).1 "B"
    rfl (by decide)

/-- Claim C9: applying a ContentDelta payload to a message sequence with no
assistant entry is a total no-op on the sequence — the model is a total
function (no exception), and the sequence is unchanged, hence of unchanged
length with every message unchanged. -/
theorem c9_delta_without_assistant_noop (ctx : SendCtx) (st : SessionSt)
    (buf s : String) (h : hasAssistant st.messages = false) :
    (processObj ctx st buf (contentObj s)).1.messages = st.messages ∧
    (processObj ctx st buf (contentObj s)).1.messages.length =
      st.messages.length := by
  have hmeta : metaCid (contentObj s) = none := rfl
  have heq : (processObj ctx st buf (contentObj s)).1.messages = st.messages := by
    unfold processObj contentStep
    rw [hmeta]
    dsimp only
    simp only [truthy, Bool.false_and, Bool.false_eq_true, if_false]
    repeat' split
    all_goals simp [setLastAssistant_no_assistant _ _ h]
  exact ⟨heq, by rw [heq]⟩

/-- Claim C9, witness: a delta on a sequence holding only a user message
leaves the sequence untouched. -/
theorem c9_delta_without_assistant_noop_witness :
    hasAssistant stNoAssistant.messages = false ∧
    (processObj ⟨none⟩ stNoAssistant "" (contentObj "hi2")).1.messages =
      stNoAssistant.messages := by
  refine ⟨by decide, ?_⟩
  exact (c9_delta_without_assistant_noop ⟨none⟩ stNoAssistant "" "hi2"
    (by decide)).1

/-- Claim C10: a decoded payload whose `meta.conversationId` is absent or
falsy (null, 0, "", false) never changes the session locator — after
processing, `conversationId` equals its value before the frame. -/
theorem c10_falsy_meta_keeps_locator (o : Json)
    (h : truthy (metaCid o) = false) (ctx : SendCtx) (st : SessionSt)
    (buf : String) :
    (processObj ctx st buf o).1.conversationId = st.conversationId := by
  unfold processObj contentStep
  rw [h]
  dsimp only
  simp only [Bool.false_and, Bool.false_eq_true, if_false]
  repeat' split
  all_goals rfl

/-- Claim C10, witness: a Meta payload with `conversationId = 0` leaves the
locator unchanged. -/
theorem c10_falsy_meta_keeps_locator_witness :
    truthy (metaCid metaZeroObj) = false ∧
    (processObj ⟨none⟩ stC1 "" metaZeroObj).1.conversationId =
      stC1.conversationId := by
  refine ⟨by decide, ?_⟩
  exact c10_falsy_meta_keeps_locator metaZeroObj (by decide) ⟨none⟩ stC1 ""

end PolyChat
